import Mathlib

/-!
Verification development for a Game Boy emulator core.

Shallow embedding conventions:
* machine integers (u8, u16) are modelled as `Nat` with explicit `% 256`
  or `% 65536` at the points where the source wraps;
* Rust `overflowing_add` on u8 is modelled as the pair
  `((x + 1) % 256, x + 1 >= 256)`; `wrapping_add` as `% 256`;
* plain `+` / `-` / `+=` / `-=` on u16 in the source is modelled with the
  release-profile semantics (two`s-complement wrap, i.e. mod 65536);
* a `panic!`-like macro in the source (the unimplemented and assert macros)
  is modelled by an `Option` result, `none` standing for the abort;
* byte arrays and the flat address space are modelled as functions
  `Nat -> Nat`, written with pointwise update.

Every definition is translated from the repository sources
(`core/src/timer.rs`, `core/src/ppu/tile.rs`, `core/src/ppu/modes.rs`,
`core/src/cart/mod.rs`, `core/src/cpu/mod.rs`, `core/src/io.rs`,
`core/src/bus.rs`, `core/src/utils.rs`).
-/

namespace GB

/-! Bit and byte utilities, from `core/src/utils.rs`. -/

/-- Models `BitOps::get_bit`: `(self & (1 << bit)) != 0`. -/
def getBit (x bit : Nat) : Bool :=
  x &&& (1 <<< bit) != 0

/-- Models `BitOps::set_bit` on u8: set ORs the mask in, clear ANDs with the
8-bit complement of the mask. -/
def setBit8 (x bit : Nat) (s : Bool) : Nat :=
  if s then x ||| (1 <<< bit) else x &&& (255 ^^^ (1 <<< bit))

/-- Models `BitOps::set_bit` on u16. -/
def setBit16 (x bit : Nat) (s : Bool) : Nat :=
  if s then x ||| (1 <<< bit) else x &&& (65535 ^^^ (1 <<< bit))

/-- Models `merge_bytes`: `((high as u16) << 8) | (low as u16)`. -/
def mergeBytes (high low : Nat) : Nat :=
  (high <<< 8) ||| low

/-- Models `ByteOps::high_byte` on u16: `(self >> 8) as u8`. -/
def highByte (x : Nat) : Nat :=
  (x >>> 8) % 256

/-- Models `ByteOps::low_byte` on u16: `self & 0xFF`. -/
def lowByte (x : Nat) : Nat :=
  x &&& 0xFF

/-- Models `check_h_carry_u8`: `((lhs & 0xF) + (rhs & 0xF)) & 0xF0 != 0`. -/
def checkHCarryU8 (lhs rhs : Nat) : Bool :=
  ((lhs &&& 0xF) + (rhs &&& 0xF)) &&& 0xF0 != 0

/-- Models `check_h_borrow_u8`: `(lhs & 0xF).checked_sub(rhs & 0xF).is_none()`,
i.e. the masked subtraction underflows. -/
def checkHBorrowU8 (lhs rhs : Nat) : Bool :=
  (lhs &&& 0xF) < (rhs &&& 0xF)

/-! Timer, from `core/src/timer.rs`.

Fields are the six u8 fields of `struct Timer`; `tick` runs the per-T-cycle
loop `4 * m_cycles` times, threading the `interrupt` accumulator. -/

structure Timer where
  counter : Nat
  div : Nat
  tima : Nat
  tma : Nat
  tac : Nat
  timaCooldown : Nat
deriving DecidableEq

def Timer.new : Timer :=
  ⟨0, 0, 0, 0, 0, 0⟩

/-- Models `Timer::get_tima_period`: match on `self.tac & 0b11`.
The periods are u16 masks `1 << 9`, `1 << 3`, `1 << 5`, `1 << 7`. -/
def Timer.getTimaPeriod (t : Timer) : Nat :=
  match t.tac &&& 0b11 with
  | 0 => 1 <<< 9
  | 1 => 1 <<< 3
  | 2 => 1 <<< 5
  | _ => 1 <<< 7

/-- Models `Timer::tima_tick`: `(self.div as u16 & self.get_tima_period()) != 0`. -/
def Timer.timaTickBit (t : Timer) : Bool :=
  t.div &&& t.getTimaPeriod != 0

/-- Models one iteration of the T-cycle loop body inside `Timer::tick`,
threading the `interrupt` accumulator. The source tests the enable with
`self.tac.get_bit(TAC_ENABLE_BIT)` where `TAC_ENABLE_BIT` is 3. -/
def Timer.tCycle (t : Timer) (interrupt : Bool) : Timer × Bool :=
  let counter := (t.counter + 1) % 256
  let overflow := t.counter + 1 ≥ 256
  if !overflow then
    ({ t with counter := counter }, interrupt)
  else
    let t1 : Timer := { t with counter := counter }
    let oldBit := t1.timaTickBit
    let t2 : Timer := { t1 with div := (t1.div + 1) % 256 }
    let newBit := t2.timaTickBit
    let enabled := getBit t2.tac 3
    if t2.timaCooldown ≠ 0 then
      let cd := t2.timaCooldown - 1
      if cd = 0 then
        ({ t2 with timaCooldown := cd, tima := t2.tma }, true)
      else
        ({ t2 with timaCooldown := cd }, interrupt)
    else if enabled && oldBit && !newBit then
      let newTima := (t2.tima + 1) % 256
      let tOverflow := t2.tima + 1 ≥ 256
      if tOverflow then
        ({ t2 with tima := 0, timaCooldown := 4 }, interrupt)
      else
        ({ t2 with tima := newTima }, interrupt)
    else
      (t2, interrupt)

/-- Runs `n` T-cycles of the loop inside `Timer::tick`. -/
def Timer.tickT : Timer → Nat → Bool → Timer × Bool
  | t, 0, interrupt => (t, interrupt)
  | t, n + 1, interrupt =>
      let p := t.tCycle interrupt
      Timer.tickT p.1 n p.2

/-- Models `Timer::tick(m_cycles)`: `4 * m_cycles` T-cycles, returning the
updated timer and the interrupt flag. -/
def Timer.tick (t : Timer) (mCycles : Nat) : Timer × Bool :=
  t.tickT (4 * mCycles) false

/-- Models `Timer::write_timer`. -/
def Timer.writeTimer (t : Timer) (addr val : Nat) : Timer :=
  if addr = 0xFF04 then { t with div := 0 }
  else if addr = 0xFF05 then { t with tima := val, timaCooldown := 0 }
  else if addr = 0xFF06 then { t with tma := val }
  else if addr = 0xFF07 then { t with tac := val }
  else t

/-! Tile, from `core/src/ppu/tile.rs`.

The pixel grid `[[u8; 8]; 8]` is modelled as a curried function
`row -> col -> Nat`; `write_u8` is the literal loop of eight pointwise
updates, `read_u8` the literal shift-and-or fold. -/

structure Tile where
  pixels : Nat → Nat → Nat

def Tile.new : Tile :=
  ⟨fun _ _ => 0⟩

/-- Models `Tile::read_u8`: `row = offset / 2`, `bit = offset % 2`, then
`for i in 0..8 { ret <<= 1; ret |= pixels[row][7 - i].get_bit(bit) }`. -/
def Tile.readU8 (t : Tile) (offset : Nat) : Nat :=
  let row := offset / 2
  let bit := offset % 2
  (List.range 8).foldl
    (fun ret i =>
      (ret <<< 1) ||| (if getBit (t.pixels row (7 - i)) bit then 1 else 0))
    0

/-- Models `Tile::write_u8`: `for i in 0..8 { pixels[row][7 - i].set_bit(bit, val.get_bit(i)) }`. -/
def Tile.writeU8 (t : Tile) (offset val : Nat) : Tile :=
  let row := offset / 2
  let bit := offset % 2
  (List.range 8).foldl
    (fun acc i =>
      ⟨fun r c =>
        if r = row ∧ c = 7 - i then setBit8 (acc.pixels r c) bit (getBit val i)
        else acc.pixels r c⟩)
    t

/-! Cartridge and mappers, from `core/src/cart/mod.rs` (with the RTC
registers from `core/src/cart/rtc.rs`).

`Vec<u8>` contents are a function plus an explicit length; an
out-of-bounds `Vec` index (a Rust panic) and the `unimplemented!()` arms
are modelled by an `Option` result, `none` standing for the abort. -/

inductive MBC
  | NONE
  | MBC1
  | MBC2
  | MBC3
  | MBC5
  | INV
deriving DecidableEq

/-- The RTC register file from `core/src/cart/rtc.rs`. The reference
instant (`start`) comes from the host wall clock and is outside the pure
model; only the latched register bytes are kept. -/
structure Rtc where
  seconds : Nat
  minutes : Nat
  hours : Nat
  days : Nat
  enabled : Bool
  halted : Bool

def Rtc.new : Rtc :=
  ⟨0, 0, 0, 0, false, false⟩

/-- Models `Rtc::write_byte` for the register banks 0x08 to 0x0C. The
catch-all arm of the source flips `enabled` and, on a rising enable,
re-latches the wall clock; the wall-clock read is not modelled (the time
fields keep their values there). -/
def Rtc.writeByte (r : Rtc) (bank val : Nat) : Rtc :=
  if bank = 0x08 then { r with seconds := val }
  else if bank = 0x09 then { r with minutes := val }
  else if bank = 0x0A then { r with hours := val }
  else if bank = 0x0B then { r with days := (r.days &&& 0xFF00) ||| val }
  else if bank = 0x0C then
    let days := setBit16 r.days 9 (getBit val 0)
    let days := setBit16 days 10 (getBit val 7)
    { r with days := days, halted := getBit val 6 }
  else if val = 0x00 then { r with enabled := false }
  else if val = 0x01 ∧ !r.enabled then { r with enabled := true }
  else r

structure Cart where
  rom : Nat → Nat
  ram : Nat → Nat
  ramSize : Nat
  romBank : Nat
  ramBank : Nat
  mbc : MBC
  rtc : Rtc
  romMode : Bool
  ramEnabled : Bool

def Cart.new : Cart :=
  { rom := fun _ => 0
    ram := fun _ => 0
    ramSize := 0
    romBank := 1
    ramBank := 0
    mbc := MBC.NONE
    rtc := Rtc.new
    romMode := true
    ramEnabled := false }

/-- Models `Cart::get_mbc`: the match over the cartridge-type byte at
header offset 0x147. -/
def getMbc (cartType : Nat) : MBC :=
  if cartType = 0x00 then MBC.NONE
  else if 0x01 ≤ cartType ∧ cartType ≤ 0x03 then MBC.MBC1
  else if 0x05 ≤ cartType ∧ cartType ≤ 0x06 then MBC.MBC2
  else if 0x0F ≤ cartType ∧ cartType ≤ 0x13 then MBC.MBC3
  else if 0x19 ≤ cartType ∧ cartType ≤ 0x1E then MBC.MBC5
  else MBC.INV

/-- The `RAM_SIZES` lookup table (KiB units). -/
def ramSizesTable : List Nat :=
  [0, 2, 8, 32, 128, 64]

/-- Models `Cart::has_external_ram`: membership of the cartridge-type byte
in the fixed list. -/
def hasExternalRamType (cartType : Nat) : Bool :=
  [0x02, 0x03, 0x08, 0x09, 0x0C, 0x0D, 0x10, 0x12, 0x13,
   0x16, 0x17, 0x1A, 0x1B, 0x1D, 0x1E].contains cartType

/-- Models `Cart::init_ext_ram`: sizes the external RAM from the header,
forcing 512 bytes for MBC2; an out-of-range `RAM_SIZES` index (a Rust
panic) yields `none`. -/
def Cart.initExtRam (c : Cart) : Option Cart :=
  let ramSizeIdx := c.rom 0x149
  let ramSizeIdx :=
    if hasExternalRamType (c.rom 0x147) ∧ ramSizeIdx = 0 then 1 else ramSizeIdx
  if c.mbc = MBC.MBC2 then
    some { c with ram := fun _ => 0, ramSize := 512 }
  else
    match ramSizesTable.get? ramSizeIdx with
    | some kib => some { c with ram := fun _ => 0, ramSize := kib * 1024 }
    | none => none

/-- Models `Cart::load_cart`: install the ROM bytes, decode the mapper,
size the external RAM. -/
def Cart.loadCart (c : Cart) (rom : Nat → Nat) : Option Cart :=
  let c := { c with rom := rom }
  let c := { c with mbc := getMbc (rom 0x147) }
  c.initExtRam

/-- Models `Cart::mbc1_write_rom`. The final arm is unreachable from the
bus (which only routes addresses at or below 0x7FFF here); it is modelled
as the identity. -/
def Cart.mbc1WriteRom (c : Cart) (addr val : Nat) : Cart :=
  if addr ≤ 0x1FFF then
    { c with ramEnabled := val = 0x0A }
  else if addr ≤ 0x3FFF then
    let bank := val &&& 0x1F
    if bank = 0x00 ∨ bank = 0x20 ∨ bank = 0x40 ∨ bank = 0x60 then
      { c with romBank := bank + 1 }
    else
      { c with romBank := bank }
  else if addr ≤ 0x5FFF then
    let bits := val &&& 0b11
    if c.romMode then
      { c with romBank := c.romBank ||| (bits <<< 5) }
    else
      { c with ramBank := bits }
  else if addr ≤ 0x7FFF then
    { c with romMode := val = 0 }
  else c

/-- Models `Cart::write_ram_helper`: gated on `ram_enabled`; the `Vec`
index panics when the banked address is out of range, modelled as `none`. -/
def Cart.writeRamHelper (c : Cart) (addr val : Nat) : Option Cart :=
  if c.ramEnabled then
    let relAddr := addr - 0xA000
    let ramAddr := c.ramBank * 0x2000 + relAddr
    if ramAddr < c.ramSize then
      some { c with ram := fun i => if i = ramAddr then val else c.ram i }
    else none
  else some c

/-- Models `Cart::mbc3_write_ram`. -/
def Cart.mbc3WriteRam (c : Cart) (addr val : Nat) : Option Cart :=
  if c.ramBank ≤ 0x03 then
    c.writeRamHelper addr val
  else if 0x08 ≤ c.ramBank ∧ c.ramBank ≤ 0x0C then
    if c.ramEnabled then
      some { c with rtc := c.rtc.writeByte c.ramBank val }
    else some c
  else some c

/-- Models `Cart::write_ram`: the match over the mapper kind. The
catch-all arm is `unimplemented!()` in the source, a fatal panic; it is
reached for `MBC::MBC2` (and `MBC::INV`) and modelled as `none`. -/
def Cart.writeRam (c : Cart) (addr val : Nat) : Option Cart :=
  match c.mbc with
  | MBC.NONE =>
      let relAddr := addr - 0xA000
      if relAddr < c.ramSize then
        some { c with ram := fun i => if i = relAddr then val else c.ram i }
      else none
  | MBC.MBC1 | MBC.MBC5 => c.writeRamHelper addr val
  | MBC.MBC3 => c.mbc3WriteRam addr val
  | _ => none

/-- A ROM image whose cartridge-type header byte (offset 0x147) is 0x05,
an MBC2 cartridge; every other byte is zero. -/
def mbc2Rom : Nat → Nat :=
  fun a => if a = 0x147 then 0x05 else 0

/-- The machine-visible cart after loading `mbc2Rom`. -/
def mbc2CartLoaded : Option Cart :=
  Cart.loadCart Cart.new mbc2Rom

/-! PPU mode state machine, from `core/src/ppu/modes.rs`. -/

inductive LcdMode
  | HBLANK
  | VBLANK
  | OAMRead
  | VRAMRead
deriving DecidableEq

inductive LcdResult
  | NoAction
  | RenderFrame
  | RenderLine
deriving DecidableEq

structure Lcd where
  mode : LcdMode
  cycles : Nat
  line : Nat
deriving DecidableEq

def Lcd.new : Lcd :=
  ⟨LcdMode.HBLANK, 0, 0⟩

/-- Models `Lcd::step`: accumulate the elapsed cycles and advance the
per-scanline state machine. Constants from the source: `HBLANK_LEN = 204`,
`VBLANK_LEN = 456`, `OAM_READ_LEN = 80`, `VRAM_READ_LEN = 172`,
`VBLANK_LINE_START = 143`, `VBLANK_LINE_END = 153`. The u8 line counter
increments are taken mod 256. -/
def Lcd.step (l : Lcd) (cyc : Nat) : Lcd × LcdResult :=
  let cycles := l.cycles + cyc
  match l.mode with
  | LcdMode.HBLANK =>
      if cycles ≥ 204 then
        let line := (l.line + 1) % 256
        if line = 143 then
          (⟨LcdMode.VBLANK, 0, line⟩, LcdResult.RenderFrame)
        else
          (⟨LcdMode.OAMRead, 0, line⟩, LcdResult.NoAction)
      else (⟨LcdMode.HBLANK, cycles, l.line⟩, LcdResult.NoAction)
  | LcdMode.VBLANK =>
      if cycles ≥ 456 then
        let line := (l.line + 1) % 256
        if line > 153 then
          (⟨LcdMode.OAMRead, 0, 0⟩, LcdResult.NoAction)
        else
          (⟨LcdMode.VBLANK, 0, line⟩, LcdResult.NoAction)
      else (⟨LcdMode.VBLANK, cycles, l.line⟩, LcdResult.NoAction)
  | LcdMode.OAMRead =>
      if cycles ≥ 80 then
        (⟨LcdMode.VRAMRead, 0, l.line⟩, LcdResult.NoAction)
      else (⟨LcdMode.OAMRead, cycles, l.line⟩, LcdResult.NoAction)
  | LcdMode.VRAMRead =>
      if cycles ≥ 172 then
        (⟨LcdMode.HBLANK, 0, l.line⟩, LcdResult.RenderLine)
      else (⟨LcdMode.VRAMRead, cycles, l.line⟩, LcdResult.NoAction)

/-- Drives `Lcd.step` over a list of cycle chunks, counting the
`RenderLine` and `RenderFrame` signals. -/
def Lcd.runChunks (l : Lcd) (cs : List Nat) : Lcd × Nat × Nat :=
  cs.foldl
    (fun acc c =>
      let st2 := (acc.1).step c
      (st2.1,
       acc.2.1 + (if st2.2 = LcdResult.RenderLine then 1 else 0),
       acc.2.2 + (if st2.2 = LcdResult.RenderFrame then 1 else 0)))
    (l, 0, 0)

/-- Cycle chunks of one visible scanline: 80 OAM, 172 VRAM, 204 HBLANK. -/
def lineChunks : List Nat :=
  [80, 172, 204]

/-- Cycle chunks of one VBLANK line (456 split below the u8 argument cap). -/
def vblankLineChunks : List Nat :=
  [228, 228]

/-- Cycle chunks of one whole frame as the machine actually runs it,
starting just after a `RenderFrame` signal. -/
def frameChunks : List Nat :=
  (List.replicate 11 vblankLineChunks).flatten ++ (List.replicate 143 lineChunks).flatten

/-- Cycle chunks from reset up to the first `RenderFrame` signal. -/
def bootChunks : List Nat :=
  204 :: (List.replicate 142 lineChunks).flatten

/-! CPU register file, flags and 8-bit ALU, from `core/src/cpu/mod.rs`.

The `Regs::HL` variant of `get_r8` / `set_r8` is the memory operand and
routes through the bus; the register-file model below covers the eight
plain registers, which is all `add_a_u8` / `sub_a_u8` touch (their operand
arrives as the `val` argument). -/

inductive Flag
  | Z
  | N
  | H
  | C
deriving DecidableEq

/-- The F-register bit position of each flag (Z = 7, N = 6, H = 5, C = 4),
the masks used by `Cpu::get_flag` and `Cpu::set_flag`. -/
def Flag.bit : Flag → Nat
  | Flag.Z => 7
  | Flag.N => 6
  | Flag.H => 5
  | Flag.C => 4

/-- Models the body of `Cpu::get_flag` on the F byte. -/
def getFlag (f : Nat) : Flag → Bool
  | Flag.Z => f &&& 0x80 != 0
  | Flag.N => f &&& 0x40 != 0
  | Flag.H => f &&& 0x20 != 0
  | Flag.C => f &&& 0x10 != 0

/-- Models the body of `Cpu::set_flag` on the F byte: setting ORs the flag
mask in; clearing ANDs with a mask of the other three flag bits. -/
def setFlagF (f : Nat) (fl : Flag) (val : Bool) : Nat :=
  if val then
    match fl with
    | Flag.Z => f ||| 0x80
    | Flag.N => f ||| 0x40
    | Flag.H => f ||| 0x20
    | Flag.C => f ||| 0x10
  else
    match fl with
    | Flag.Z => f &&& 0x70
    | Flag.N => f &&& 0xB0
    | Flag.H => f &&& 0xD0
    | Flag.C => f &&& 0xE0

inductive Reg8
  | A
  | B
  | C
  | D
  | E
  | F
  | H
  | L
deriving DecidableEq

structure Cpu where
  a : Nat
  b : Nat
  c : Nat
  d : Nat
  e : Nat
  f : Nat
  h : Nat
  l : Nat

/-- Post-boot register values from `Cpu::new`. -/
def Cpu.new : Cpu :=
  { a := 0x01, b := 0x00, c := 0x13, d := 0x00
    e := 0xD8, f := 0xB0, h := 0x01, l := 0x4D }

/-- Models `Cpu::get_r8` on the plain registers. -/
def Cpu.getR8 (cpu : Cpu) : Reg8 → Nat
  | Reg8.A => cpu.a
  | Reg8.B => cpu.b
  | Reg8.C => cpu.c
  | Reg8.D => cpu.d
  | Reg8.E => cpu.e
  | Reg8.F => cpu.f
  | Reg8.H => cpu.h
  | Reg8.L => cpu.l

/-- Models `Cpu::set_r8` on the plain registers. The F arm masks the
written value with 0xF0 (the source comment: the bottom four bits of F
are 0). -/
def Cpu.setR8 (cpu : Cpu) (r : Reg8) (v : Nat) : Cpu :=
  match r with
  | Reg8.A => { cpu with a := v }
  | Reg8.B => { cpu with b := v }
  | Reg8.C => { cpu with c := v }
  | Reg8.D => { cpu with d := v }
  | Reg8.E => { cpu with e := v }
  | Reg8.F => { cpu with f := v &&& 0xF0 }
  | Reg8.H => { cpu with h := v }
  | Reg8.L => { cpu with l := v }

/-- Models `Cpu::get_flag` as a method. -/
def Cpu.getFlag (cpu : Cpu) (fl : Flag) : Bool :=
  GB.getFlag cpu.f fl

/-- Models `Cpu::set_flag` as a method. -/
def Cpu.setFlag (cpu : Cpu) (fl : Flag) (val : Bool) : Cpu :=
  { cpu with f := setFlagF cpu.f fl val }

/-- Models `Cpu::add_a_u8(val, adc)`: the two-stage add. Stage one adds
`val` to A with `overflowing_add`, stage two adds the carry-in; H and C
are the ORs of the per-stage checks. Flag write order as in the source:
N, C, H, Z, then A. -/
def Cpu.addAU8 (cpu : Cpu) (val : Nat) (adc : Bool) : Cpu :=
  let carry := if adc && cpu.getFlag Flag.C then 1 else 0
  let a := cpu.getR8 Reg8.A
  let r1 := (a + val) % 256
  let c1 : Bool := decide (256 ≤ a + val)
  let hCheck1 := checkHCarryU8 a val
  let r2 := (r1 + carry) % 256
  let c2 : Bool := decide (256 ≤ r1 + carry)
  let hCheck2 := checkHCarryU8 r1 carry
  let setH := hCheck1 || hCheck2
  let setC := c1 || c2
  let cpu := cpu.setFlag Flag.N false
  let cpu := cpu.setFlag Flag.C setC
  let cpu := cpu.setFlag Flag.H setH
  let cpu := cpu.setFlag Flag.Z (decide (r2 = 0))
  cpu.setR8 Reg8.A r2

/-- Models `Cpu::sub_a_u8(val, sbc)`: the two-stage subtract, with the u8
`overflowing_sub` wrapped difference written as `(x + 256 - y) % 256` (the
theorems carry the u8 bounds). Flag write order as in the source: N, Z, H,
C, then A. -/
def Cpu.subAU8 (cpu : Cpu) (val : Nat) (sbc : Bool) : Cpu :=
  let carry := if sbc && cpu.getFlag Flag.C then 1 else 0
  let a := cpu.getR8 Reg8.A
  let r1 := (a + 256 - val) % 256
  let b1 : Bool := decide (a < val)
  let hCheck1 := checkHBorrowU8 a val
  let r2 := (r1 + 256 - carry) % 256
  let b2 : Bool := decide (r1 < carry)
  let hCheck2 := checkHBorrowU8 r1 carry
  let setH := hCheck1 || hCheck2
  let cpu := cpu.setFlag Flag.N true
  let cpu := cpu.setFlag Flag.Z (decide (r2 = 0))
  let cpu := cpu.setFlag Flag.H setH
  let cpu := cpu.setFlag Flag.C (b1 || b2)
  cpu.setR8 Reg8.A r2

/-- Every way the sources mutate the F register: `set_r8(F, v)` (also
reached by `set_r16(AF, v)` through the low byte, e.g. POP AF) and
`set_flag(fl, b)`. A search over `core/src/cpu` shows no other write
touches the `f` field. -/
inductive FWrite
  | setR8F (v : Nat)
  | setFlag (fl : Flag) (b : Bool)

/-- Applies one F-register mutation, with the same masking as the source. -/
def applyFWrite (f : Nat) : FWrite → Nat
  | FWrite.setR8F v => v &&& 0xF0
  | FWrite.setFlag fl b => setFlagF f fl b

/-! Interrupt plumbing, HALT, fetch and the stack, from
`core/src/cpu/mod.rs` and the address decoding of `core/src/bus.rs`.

The machine slice below carries pc, sp, `irq_enabled` (IME), `halted`,
the joypad button array of `core/src/io.rs`, and a flat byte memory
standing for the cells the bus routes plain byte reads and writes to: in
particular IF at 0xFF0F lands in the generic I/O register array and IE at
0xFFFF in HRAM, both plain cells. The `last_read` / `last_write`
bookkeeping fields are omitted (no claim observes them). -/

inductive Interrupt
  | Vblank
  | Stat
  | Timer
  | Serial
  | Joypad
deriving DecidableEq

/-- Models `Interrupts::get_vector`. -/
def Interrupt.vector : Interrupt → Nat
  | Interrupt.Vblank => 0x40
  | Interrupt.Stat => 0x48
  | Interrupt.Timer => 0x50
  | Interrupt.Serial => 0x58
  | Interrupt.Joypad => 0x60

/-- The position of each interrupt in `IRQ_PRIORITIES` (the loop index of
`check_irq`), which is also the IF/IE bit used by `enable_irq_type`. -/
def Interrupt.index : Interrupt → Nat
  | Interrupt.Vblank => 0
  | Interrupt.Stat => 1
  | Interrupt.Timer => 2
  | Interrupt.Serial => 3
  | Interrupt.Joypad => 4

/-- Models `Buttons` from `core/src/io.rs` with its discriminant values. -/
inductive Button
  | A
  | B
  | Select
  | Start
  | Right
  | Left
  | Up
  | Down
deriving DecidableEq

def Button.index : Button → Nat
  | Button.A => 0
  | Button.B => 1
  | Button.Select => 2
  | Button.Start => 3
  | Button.Right => 4
  | Button.Left => 5
  | Button.Up => 6
  | Button.Down => 7

structure Machine where
  pc : Nat
  sp : Nat
  ime : Bool
  halted : Bool
  buttons : Nat → Bool
  mem : Nat → Nat

/-- Models `Cpu::read_ram` (without the `last_read` bookkeeping). -/
def Machine.readRam (s : Machine) (addr : Nat) : Nat :=
  s.mem addr

/-- Models `Cpu::write_ram` (without the `last_write` / battery
bookkeeping): a pointwise update of the flat byte cells. -/
def Machine.writeRam (s : Machine) (addr val : Nat) : Machine :=
  { s with mem := fun x => if x = addr then val else s.mem x }

/-- Models `Cpu::fetch`: read at PC, then `self.pc += 1` (u16 wrap). -/
def Machine.fetch (s : Machine) : Nat × Machine :=
  (s.readRam s.pc, { s with pc := (s.pc + 1) % 65536 })

/-- Models `Cpu::push`: `self.sp -= 2` (u16 wrap), then write the low byte
at SP and the high byte at SP + 1 (u16 wrap). -/
def Machine.push (s : Machine) (val : Nat) : Machine :=
  let s := { s with sp := (s.sp + 65534) % 65536 }
  let s := s.writeRam s.sp (lowByte val)
  s.writeRam ((s.sp + 1) % 65536) (highByte val)

/-- Models `Cpu::pop`. The source opens with
`assert_ne!(self.sp, 0xFFFE)`, a fatal abort in every build profile,
modelled as `none`; otherwise it reads low at SP and high at SP + 1 and
post-increments SP by 2 (u16 wrap). -/
def Machine.pop (s : Machine) : Option (Nat × Machine) :=
  if s.sp = 0xFFFE then none
  else
    some (mergeBytes (s.mem ((s.sp + 1) % 65536)) (s.mem s.sp),
          { s with sp := (s.sp + 2) % 65536 })

/-- Models the loop of `Cpu::check_irq` over `IRQ_PRIORITIES`, unrolled:
the first index whose `irq_flags` bit is set wins. -/
def checkIrqFlags (flags : Nat) : Option Interrupt :=
  if getBit flags 0 then some Interrupt.Vblank
  else if getBit flags 1 then some Interrupt.Stat
  else if getBit flags 2 then some Interrupt.Timer
  else if getBit flags 3 then some Interrupt.Serial
  else if getBit flags 4 then some Interrupt.Joypad
  else none

/-- Models `Cpu::check_irq`: bail out when IME is off and the CPU is not
halted, otherwise scan `IF & IE`. -/
def Machine.checkIrq (s : Machine) : Option Interrupt :=
  if !s.ime && !s.halted then none
  else checkIrqFlags (s.readRam 0xFF0F &&& s.readRam 0xFFFF)

/-- Models `Cpu::enable_irq_type`: read IF, set or clear the bit of the
given interrupt, write IF back. -/
def Machine.enableIrqType (s : Machine) (irq : Interrupt) (enabled : Bool) :
    Machine :=
  let ifReg := s.readRam 0xFF0F
  s.writeRam 0xFF0F (setBit8 ifReg irq.index enabled)

/-- Models `Cpu::trigger_irq`: always clear `halted`; when IME is on,
clear IME, push PC, jump to the vector and clear the IF bit. -/
def Machine.triggerIrq (s : Machine) (irq : Interrupt) : Machine :=
  let s := { s with halted := false }
  if s.ime then
    let s := { s with ime := false }
    let s := s.push s.pc
    let s := { s with pc := irq.vector }
    s.enableIrqType irq false
  else s

/-- Models the interrupt tail of `Cpu::tick`:
`if let Some(irq) = self.check_irq() { self.trigger_irq(irq); }`. -/
def Machine.serviceIrq (s : Machine) : Machine :=
  match s.checkIrq with
  | some irq => s.triggerIrq irq
  | none => s

/-- Models `Cpu::press_button`: forward to `IO::set_button` (store the
`pressed` flag in the button array) and then unconditionally request the
joypad interrupt. -/
def Machine.pressButton (s : Machine) (b : Button) (pressed : Bool) :
    Machine :=
  let s := { s with buttons := fun i => if i = b.index then pressed else s.buttons i }
  s.enableIrqType Interrupt.Joypad true

/-- A concrete machine slice used by witnesses: SP at 0xFFFF, PC at
0xFFFF, IME off, not halted, all buttons released, zeroed memory. -/
def machineA : Machine :=
  { pc := 0xFFFF, sp := 0xFFFF, ime := false, halted := false
    buttons := fun _ => false, mem := fun _ => 0 }

/-- A concrete machine slice used by witnesses: halted with IME on,
IF = 0b101 and IE = 0b100 (so `IF & IE` selects the TIMER interrupt). -/
def machineB : Machine :=
  { pc := 0x1234, sp := 0xC100, ime := true, halted := true
    buttons := fun _ => false
    mem := fun a => if a = 0xFF0F then 0b101 else if a = 0xFFFF then 0b100 else 0 }

end GB

namespace GB

/-- C1 counterexample state: counter about to wrap, DIV = 0x0F so DIV bit 3
falls on the next DIV increment, TAC = 0b101 (input clock 01 selecting
DIV bit 3, enable bit 2 set as the spec reads it, bit 3 clear). -/
def timerC1A : Timer :=
  ⟨255, 0x0F, 0, 0, 0b101, 0⟩

/-- C1 contrast state: same, but TAC = 0b1001 (bit 3 set, bit 2 clear). -/
def timerC1B : Timer :=
  ⟨255, 0x0F, 0, 0, 0b1001, 0⟩

/-- C1: the claim says TIMA increments exactly on a falling edge of the
selected DIV bit when TAC bit 2 is set. The code instead tests TAC bit 3
(`TAC_ENABLE_BIT = 3`). Evaluated at the failing input: with TAC = 0b101
(enable per the claim set, DIV bit 3 falling during the tick) TIMA stays 0,
while with TAC = 0b1001 (claim reads it as disabled) TIMA increments to 1. -/
theorem timer_tick_uses_tac_bit3_not_bit2 :
    getBit timerC1A.tac 2 = true
    ∧ getBit timerC1A.tac 3 = false
    ∧ timerC1A.timaTickBit = true
    ∧ Timer.tick timerC1A 1 = (⟨3, 0x10, 0, 0, 0b101, 0⟩, false)
    ∧ getBit timerC1B.tac 2 = false
    ∧ Timer.tick timerC1B 1 = (⟨3, 0x10, 1, 0, 0b1001, 0⟩, false) := by
  refine ⟨by decide, by decide, by decide, by decide, by decide, by decide⟩

/-- C2: the tile pack/unpack round trip fails. Writing the single byte
0x01 into a fresh tile at offset 0 stores a pixel LSB at column 7 (pixel
`7 - b` receives bit `b`, exactly as the spec packing rule says), but
reading the same offset back yields 0x80, the bit-reversed byte, not 0x01. -/
theorem tile_write_read_bit_reversed :
    (Tile.writeU8 Tile.new 0 0x01).pixels 0 7 = 1
    ∧ Tile.readU8 (Tile.writeU8 Tile.new 0 0x01) 0 = 0x80
    ∧ (0x80 : Nat) ≠ 0x01 := by
  refine ⟨by decide, by decide, by decide⟩

/-- C3 counterexample: writing 0x20 to the MBC1 ROM-bank register range
leaves the lower ROM bank at 1, not the 0x21 the claim states, because the
value is masked with 0x1F before the remap comparison. -/
theorem mbc1_bank_write_0x20_yields_1 :
    (Cart.mbc1WriteRom Cart.new 0x2000 0x20).romBank = 1
    ∧ (Cart.mbc1WriteRom Cart.new 0x2000 0x20).romBank ≠ 0x21 := by
  refine ⟨by decide, by decide⟩

/-- C3 amended: a write of `v` to the MBC1 range 0x2000 to 0x3FFF sets the
lower ROM bank to `v & 0x1F`, remapped to 1 when that masked value is 0;
the masked value can never be 0x20, 0x40 or 0x60, so those remap arms are
dead and writing 0x00, 0x20, 0x40 or 0x60 all yield bank 1. -/
theorem mbc1_bank_write_masked_remap (c : Cart) (addr val : Nat)
    (h1 : 0x2000 ≤ addr) (h2 : addr ≤ 0x3FFF) :
    (c.mbc1WriteRom addr val).romBank =
      if val &&& 0x1F = 0 then 1 else val &&& 0x1F := by
  have hle : val &&& 0x1F ≤ 0x1F := Nat.and_le_right
  unfold Cart.mbc1WriteRom
  rw [if_neg (by omega), if_pos (by omega)]
  rcases h0 : decide (val &&& 0x1F = 0) with _ | _
  · have h0 := of_decide_eq_false h0
    rw [if_neg (by omega), if_neg h0]
  · have h0 := of_decide_eq_true h0
    rw [if_pos (by omega), if_pos h0]
    show (val &&& 0x1F) + 1 = 1
    omega

/-- Witness for the amended C3 theorem at the concrete input of the claim. -/
theorem mbc1_bank_write_masked_remap_witness :
    (Cart.mbc1WriteRom Cart.new 0x2000 0x20).romBank =
      if (0x20 : Nat) &&& 0x1F = 0 then 1 else (0x20 : Nat) &&& 0x1F :=
  mbc1_bank_write_masked_remap Cart.new 0x2000 0x20 (by decide) (by decide)

set_option maxRecDepth 4000 in
/-- C8: evaluated frame structure of the PPU mode state machine. From
reset, the first `RenderFrame` fires when the HBLANK of line 142 completes
(the line counter just became 143), after only 142 `RenderLine` signals.
From that point every frame consists of 11 VBLANK lines (143 through 153)
followed by 143 visible scanlines, so a frame carries 143 `RenderLine`
signals, not the 144 visible scanlines the claim states; LY does reach 153
before wrapping. -/
theorem lcd_frame_has_143_visible_lines :
    Lcd.runChunks Lcd.new bootChunks = (⟨LcdMode.VBLANK, 0, 143⟩, 142, 1)
    ∧ Lcd.runChunks ⟨LcdMode.VBLANK, 0, 143⟩ frameChunks
        = (⟨LcdMode.VBLANK, 0, 143⟩, 143, 1)
    ∧ (Lcd.runChunks ⟨LcdMode.VBLANK, 0, 143⟩
        ((List.replicate 10 vblankLineChunks).flatten)).1
        = ⟨LcdMode.VBLANK, 0, 153⟩
    ∧ (143 : Nat) ≠ 144 := by
  refine ⟨by decide, by decide, by decide, by decide⟩

/-! Bit-mask helper lemmas shared by the flag and interrupt proofs. -/

theorem or_and_of_and_zero (f m p : Nat) (h : m &&& p = 0) :
    (f ||| m) &&& p = f &&& p := by
  rw [Nat.and_distrib_right, h, Nat.or_zero]

theorem and_and_of_and_sub (f m p : Nat) (h : m &&& p = p) :
    (f &&& m) &&& p = f &&& p := by
  rw [Nat.and_assoc, h]

theorem and_and_of_and_zero (f m p : Nat) (h : m &&& p = 0) :
    (f &&& m) &&& p = 0 := by
  rw [Nat.and_assoc, h, Nat.and_zero]

theorem or_and_self_ne_zero (f m : Nat) (h : m ≠ 0) :
    (f ||| m) &&& m ≠ 0 := by
  intro hc
  apply h
  apply Nat.eq_of_testBit_eq
  intro j
  simp only [Nat.zero_testBit]
  rcases hm : m.testBit j with _ | _
  · rfl
  · exfalso
    have hj := congrArg (fun x => x.testBit j) hc
    simp [Nat.testBit_and, Nat.testBit_or, hm] at hj

theorem getBit_eq_testBit (x k : Nat) : getBit x k = x.testBit k := by
  unfold getBit
  rw [Nat.one_shiftLeft, Nat.and_two_pow]
  cases h : x.testBit k
  · simp
  · simp

/-- Reading any flag through `get_flag` and writing any flag through
`set_flag` interact pointwise: the written flag reads back, the other
three are untouched. -/
theorem getFlag_setFlagF (f : Nat) (fl fl' : Flag) (b : Bool) :
    getFlag (setFlagF f fl b) fl' = if fl' = fl then b else getFlag f fl' := by
  cases b <;> cases fl <;> cases fl' <;>
    simp only [getFlag, setFlagF, Bool.false_eq_true, if_true, if_false, reduceCtorEq,
      reduceIte] <;>
    first
      | rfl
      | rw [or_and_of_and_zero _ _ _ (by decide)]
      | rw [and_and_of_and_sub _ _ _ (by decide)]
      | (rw [and_and_of_and_zero _ _ _ (by decide)]
         try rfl)
      | (simp only [bne_iff_ne, ne_eq]
         exact or_and_self_ne_zero _ _ (by decide))

/-- C5: the two-stage ADC and SBC. With carry-in `c` read from the carry
flag, the final A is the wrapped sum `(a + v + c) % 256` (for SBC the
wrapped difference), Z reflects the final result, N is cleared (set for
SBC), and H and C are the ORs of the per-stage half and full
carries (borrows). -/
theorem adc_sbc_two_stage (cpu : Cpu) (val : Nat) (hv : val < 256) :
    ((cpu.addAU8 val true).a
        = (cpu.a + val + (if cpu.getFlag Flag.C then 1 else 0)) % 256
      ∧ (cpu.addAU8 val true).getFlag Flag.Z
        = decide ((cpu.addAU8 val true).a = 0)
      ∧ (cpu.addAU8 val true).getFlag Flag.N = false
      ∧ (cpu.addAU8 val true).getFlag Flag.H
        = (checkHCarryU8 cpu.a val
           || checkHCarryU8 ((cpu.a + val) % 256) (if cpu.getFlag Flag.C then 1 else 0))
      ∧ (cpu.addAU8 val true).getFlag Flag.C
        = (decide (256 ≤ cpu.a + val)
           || decide (256 ≤ (cpu.a + val) % 256 + (if cpu.getFlag Flag.C then 1 else 0))))
    ∧ ((cpu.subAU8 val true).a
        = (cpu.a + 512 - val - (if cpu.getFlag Flag.C then 1 else 0)) % 256
      ∧ (cpu.subAU8 val true).getFlag Flag.Z
        = decide ((cpu.subAU8 val true).a = 0)
      ∧ (cpu.subAU8 val true).getFlag Flag.N = true
      ∧ (cpu.subAU8 val true).getFlag Flag.H
        = (checkHBorrowU8 cpu.a val
           || checkHBorrowU8 ((cpu.a + 256 - val) % 256) (if cpu.getFlag Flag.C then 1 else 0))
      ∧ (cpu.subAU8 val true).getFlag Flag.C
        = (decide (cpu.a < val)
           || decide ((cpu.a + 256 - val) % 256 < (if cpu.getFlag Flag.C then 1 else 0)))) := by
  constructor
  · refine ⟨?_, ?_, ?_, ?_, ?_⟩ <;>
      simp only [Cpu.addAU8, Cpu.setFlag, Cpu.getFlag, Cpu.setR8, Cpu.getR8,
        getFlag_setFlagF, Bool.true_and, reduceCtorEq, reduceIte, if_true, if_false]
    omega
  · refine ⟨?_, ?_, ?_, ?_, ?_⟩ <;>
      simp only [Cpu.subAU8, Cpu.setFlag, Cpu.getFlag, Cpu.setR8, Cpu.getR8,
        getFlag_setFlagF, Bool.true_and, reduceCtorEq, reduceIte, if_true, if_false]
    by_cases hC : GB.getFlag cpu.f Flag.C = true
    · simp only [if_pos hC]
      omega
    · simp only [if_neg hC]
      omega

/-- Witness for the C5 theorem at A = 0xFF, carry set, operand 0x01. -/
theorem adc_sbc_two_stage_witness :
    ((Cpu.new.addAU8 1 true).a
        = (Cpu.new.a + 1 + (if Cpu.new.getFlag Flag.C then 1 else 0)) % 256)
    ∧ (Cpu.new.addAU8 1 true).getFlag Flag.N = false := by
  have h := adc_sbc_two_stage Cpu.new 1 (by decide)
  exact ⟨h.1.1, h.1.2.2.1⟩

theorem mod16_eq_and15 (x : Nat) : x % 16 = x &&& 15 := by
  have h := Nat.and_pow_two_sub_one_eq_mod x 4
  norm_num at h
  omega

theorem and_mask_mod16 (v m : Nat) (h : m &&& 15 = 0) : (v &&& m) % 16 = 0 := by
  rw [mod16_eq_and15, Nat.and_assoc, h, Nat.and_zero]

theorem or_mask_mod16 (v m : Nat) (hv : v % 16 = 0) (h : m &&& 15 = 0) :
    (v ||| m) % 16 = 0 := by
  rw [mod16_eq_and15, Nat.and_distrib_right, ← mod16_eq_and15, hv, h]
  rfl

/-- One F-register mutation keeps the low nibble zero. -/
theorem applyFWrite_low_nibble (f : Nat) (hf : f % 16 = 0) (op : FWrite) :
    applyFWrite f op % 16 = 0 := by
  cases op with
  | setR8F v =>
      exact and_mask_mod16 v 0xF0 (by decide)
  | setFlag fl b =>
      cases b <;> cases fl <;>
        simp only [applyFWrite, setFlagF, Bool.false_eq_true, if_true, if_false,
          reduceIte] <;>
        first
          | exact and_mask_mod16 _ _ (by decide)
          | exact or_mask_mod16 _ _ hf (by decide)

/-- Any sequence of F-register mutations keeps the low nibble zero. -/
theorem foldl_applyFWrite_low_nibble (ops : List FWrite) :
    ∀ f : Nat, f % 16 = 0 → (ops.foldl applyFWrite f) % 16 = 0 := by
  induction ops with
  | nil => intro f hf; simpa using hf
  | cons op rest ih =>
      intro f hf
      exact ih _ (applyFWrite_low_nibble f hf op)

/-- C7: starting from the post-boot F value 0xB0 of `Cpu::new`, every
sequence of the F-register mutations that exist in the sources (`set_r8`
on F, including POP AF through `set_r16`, and `set_flag`) leaves the low
nibble of F zero; and the four flags live at the fixed F bits Z = 7,
N = 6, H = 5, C = 4 as read by `get_flag`. -/
theorem f_low_nibble_invariant :
    (∀ ops : List FWrite, (ops.foldl applyFWrite Cpu.new.f) % 16 = 0)
    ∧ (∀ x : Nat,
        getFlag x Flag.Z = x.testBit 7
        ∧ getFlag x Flag.N = x.testBit 6
        ∧ getFlag x Flag.H = x.testBit 5
        ∧ getFlag x Flag.C = x.testBit 4) := by
  constructor
  · intro ops
    exact foldl_applyFWrite_low_nibble ops Cpu.new.f (by decide)
  · intro x
    exact ⟨getBit_eq_testBit x 7, getBit_eq_testBit x 6,
           getBit_eq_testBit x 5, getBit_eq_testBit x 4⟩

theorem getBit_setBit8_clear (x k : Nat) (hk : k < 8) :
    getBit (setBit8 x k false) k = false := by
  unfold setBit8 getBit
  simp only [Bool.false_eq_true, if_false, reduceIte]
  rw [and_and_of_and_zero _ _ _ (by interval_cases k <;> decide)]
  rfl

theorem triggerIrq_halted (s : Machine) (irq : Interrupt) :
    (s.triggerIrq irq).halted = false := by
  unfold Machine.triggerIrq
  dsimp only
  split
  · rfl
  · rfl

/-- When IF and IE share one of the five interrupt bits, the unrolled
priority scan returns an interrupt. -/
theorem checkIrqFlags_ne_none (flags : Nat) (h : flags &&& 0x1F ≠ 0) :
    checkIrqFlags flags ≠ none := by
  intro hn
  unfold checkIrqFlags at hn
  split_ifs at hn with h0 h1 h2 h3 h4
  simp only [Bool.not_eq_true] at h0 h1 h2 h3 h4
  apply h
  apply Nat.eq_of_testBit_eq
  intro j
  simp only [Nat.testBit_and, Nat.zero_testBit]
  by_cases hj : j < 5
  · have hb : flags.testBit j = false := by
      interval_cases j
      · rw [← getBit_eq_testBit]; exact h0
      · rw [← getBit_eq_testBit]; exact h1
      · rw [← getBit_eq_testBit]; exact h2
      · rw [← getBit_eq_testBit]; exact h3
      · rw [← getBit_eq_testBit]; exact h4
    simp [hb]
  · have h31 : Nat.testBit 31 j = false := by
      apply Nat.testBit_lt_two_pow
      have hp : (2 : Nat) ^ 5 ≤ 2 ^ j := Nat.pow_le_pow_right (by norm_num) (by omega)
      omega
    simp [h31]

theorem writeRam_mem_self (s : Machine) (a v : Nat) :
    (s.writeRam a v).mem a = v := by
  simp [Machine.writeRam]

theorem writeRam_mem_other (s : Machine) (a v x : Nat) (h : x ≠ a) :
    (s.writeRam a v).mem x = s.mem x := by
  simp [Machine.writeRam, h]

theorem push_eq (s : Machine) (v : Nat) :
    s.push v
      = (({ s with sp := (s.sp + 65534) % 65536 }).writeRam
          ((s.sp + 65534) % 65536) (lowByte v)).writeRam
          (((s.sp + 65534) % 65536 + 1) % 65536) (highByte v) := rfl

theorem enableIrqType_eq (s : Machine) (irq : Interrupt) (e : Bool) :
    s.enableIrqType irq e
      = s.writeRam 0xFF0F (setBit8 (s.mem 0xFF0F) irq.index e) := rfl

theorem triggerIrq_eq (s : Machine) (irq : Interrupt) (him : s.ime = true) :
    s.triggerIrq irq
      = ({ ({ s with halted := false, ime := false }).push s.pc
            with pc := irq.vector }).enableIrqType irq false := by
  unfold Machine.triggerIrq
  dsimp only
  rw [if_pos him]

/-- The taken-interrupt effects of `trigger_irq` when IME is on: IME is
cleared, PC jumps to the vector, SP drops by two with wrap, the pushed PC
bytes land at the two stack cells (when the push does not collide with the
IF cell), and the IF bit of the interrupt ends cleared. -/
theorem triggerIrq_effects (s : Machine) (irq : Interrupt) (him : s.ime = true) :
    (s.triggerIrq irq).ime = false
    ∧ (s.triggerIrq irq).pc = irq.vector
    ∧ (s.triggerIrq irq).sp = (s.sp + 65534) % 65536
    ∧ getBit ((s.triggerIrq irq).mem 0xFF0F) irq.index = false
    ∧ ((s.sp + 65534) % 65536 ≠ 0xFF0F →
        (s.triggerIrq irq).mem ((s.sp + 65534) % 65536) = lowByte s.pc)
    ∧ (((s.sp + 65534) % 65536 + 1) % 65536 ≠ 0xFF0F →
        (s.triggerIrq irq).mem (((s.sp + 65534) % 65536 + 1) % 65536)
          = highByte s.pc) := by
  have hidx : irq.index < 8 := by cases irq <;> decide
  have hsp : (s.sp + 65534) % 65536 ≠ ((s.sp + 65534) % 65536 + 1) % 65536 := by
    omega
  rw [triggerIrq_eq s irq him, enableIrqType_eq, push_eq]
  dsimp only
  refine ⟨rfl, rfl, rfl, ?_, ?_, ?_⟩
  · rw [writeRam_mem_self]
    exact getBit_setBit8_clear _ _ hidx
  · intro hne
    rw [writeRam_mem_other _ _ _ _ hne, writeRam_mem_other _ _ _ _ hsp,
      writeRam_mem_self]
  · intro hne
    rw [writeRam_mem_other _ _ _ _ hne, writeRam_mem_self]

/-- C4: interrupt selection and servicing, as run at the tail of every
`tick`. When one of the five bits of `IF & IE` is pending, a halted CPU
always leaves the halted state whatever IME says; the selected interrupt
is the lowest pending bit; it is taken only when IME is on, in which case
IME is cleared, PC is pushed (low byte at the new SP, high byte above it),
PC becomes the vector (0x40/0x48/0x50/0x58/0x60) and the IF bit of the
taken interrupt is cleared; with IME off and the CPU not halted, nothing
happens. -/
theorem irq_service_spec (s : Machine) :
    ((s.mem 0xFF0F &&& s.mem 0xFFFF) &&& 0x1F ≠ 0 → s.halted = true →
        (s.serviceIrq).halted = false)
    ∧ (s.ime = false → s.halted = false → s.serviceIrq = s)
    ∧ (∀ irq, s.checkIrq = some irq →
        getBit (s.mem 0xFF0F &&& s.mem 0xFFFF) irq.index = true
        ∧ (∀ j, j < irq.index →
            getBit (s.mem 0xFF0F &&& s.mem 0xFFFF) j = false)
        ∧ (s.serviceIrq).halted = false
        ∧ (s.ime = false → s.serviceIrq = { s with halted := false })
        ∧ (s.ime = true →
            (s.serviceIrq).ime = false
            ∧ (s.serviceIrq).pc = irq.vector
            ∧ (s.serviceIrq).sp = (s.sp + 65534) % 65536
            ∧ getBit ((s.serviceIrq).mem 0xFF0F) irq.index = false
            ∧ ((s.sp + 65534) % 65536 ≠ 0xFF0F →
                (s.serviceIrq).mem ((s.sp + 65534) % 65536) = lowByte s.pc)
            ∧ (((s.sp + 65534) % 65536 + 1) % 65536 ≠ 0xFF0F →
                (s.serviceIrq).mem (((s.sp + 65534) % 65536 + 1) % 65536)
                  = highByte s.pc)))
    ∧ (s.ime = true → (s.mem 0xFF0F &&& s.mem 0xFFFF) &&& 0x1F ≠ 0 →
        s.checkIrq ≠ none)
    ∧ (Interrupt.Vblank.vector = 0x40 ∧ Interrupt.Stat.vector = 0x48
       ∧ Interrupt.Timer.vector = 0x50 ∧ Interrupt.Serial.vector = 0x58
       ∧ Interrupt.Joypad.vector = 0x60) := by
  refine ⟨?_, ?_, ?_, ?_, rfl, rfl, rfl, rfl, rfl⟩
  · intro hp hh
    rcases hval : checkIrqFlags (s.mem 0xFF0F &&& s.mem 0xFFFF) with _ | irq
    · exact absurd hval (checkIrqFlags_ne_none _ hp)
    · have hcheck : s.checkIrq = some irq := by
        simp [Machine.checkIrq, Machine.readRam, hh, hval]
      simp only [Machine.serviceIrq, hcheck]
      exact triggerIrq_halted s irq
  · intro hime hh
    have hc : s.checkIrq = none := by
      simp [Machine.checkIrq, hime, hh]
    simp [Machine.serviceIrq, hc]
  · intro irq hirq
    have hserv : s.serviceIrq = s.triggerIrq irq := by
      simp [Machine.serviceIrq, hirq]
    have hflags : checkIrqFlags (s.mem 0xFF0F &&& s.mem 0xFFFF) = some irq := by
      unfold Machine.checkIrq Machine.readRam at hirq
      by_cases hg : (!s.ime && !s.halted) = true
      · rw [if_pos hg] at hirq
        exact absurd hirq (by simp)
      · rw [if_neg hg] at hirq
        exact hirq
    refine ⟨?_, ?_, ?_, ?_, ?_⟩
    · unfold checkIrqFlags at hflags
      split_ifs at hflags with h0 h1 h2 h3 h4 <;>
        (injection hflags with hh
         subst hh
         assumption)
    · unfold checkIrqFlags at hflags
      split_ifs at hflags with h0 h1 h2 h3 h4
      · injection hflags with hh
        subst hh
        intro j hj
        simp [Interrupt.index] at hj
      · injection hflags with hh
        subst hh
        simp only [Bool.not_eq_true] at h0
        intro j hj
        simp only [Interrupt.index] at hj
        interval_cases j
        · exact h0
      · injection hflags with hh
        subst hh
        simp only [Bool.not_eq_true] at h0 h1
        intro j hj
        simp only [Interrupt.index] at hj
        interval_cases j
        · exact h0
        · exact h1
      · injection hflags with hh
        subst hh
        simp only [Bool.not_eq_true] at h0 h1 h2
        intro j hj
        simp only [Interrupt.index] at hj
        interval_cases j
        · exact h0
        · exact h1
        · exact h2
      · injection hflags with hh
        subst hh
        simp only [Bool.not_eq_true] at h0 h1 h2 h3
        intro j hj
        simp only [Interrupt.index] at hj
        interval_cases j
        · exact h0
        · exact h1
        · exact h2
        · exact h3
    · rw [hserv]
      exact triggerIrq_halted s irq
    · intro him
      rw [hserv]
      simp [Machine.triggerIrq, him]
    · intro him
      rw [hserv]
      exact triggerIrq_effects s irq him
  · intro him hp
    have hg : ¬(!s.ime && !s.halted) = true := by simp [him]
    unfold Machine.checkIrq Machine.readRam
    rw [if_neg hg]
    exact checkIrqFlags_ne_none _ hp

/-- Witness for the C4 theorem at `machineB` (halted, IME on, pending
TIMER): the CPU wakes, IME clears, PC jumps to 0x50 and the pushed PC low
byte sits at the new SP. -/
theorem irq_service_spec_witness :
    (machineB.serviceIrq).halted = false
    ∧ (machineB.serviceIrq).ime = false
    ∧ (machineB.serviceIrq).pc = Interrupt.Timer.vector
    ∧ getBit ((machineB.serviceIrq).mem 0xFF0F) Interrupt.Timer.index = false
    ∧ (machineB.serviceIrq).mem ((machineB.sp + 65534) % 65536)
        = lowByte machineB.pc := by
  have h := irq_service_spec machineB
  have h3 := h.2.2.1 Interrupt.Timer (by decide)
  have h5 := h3.2.2.2.2 (by rfl)
  exact ⟨h3.2.2.1, h5.1, h5.2.1, h5.2.2.2.1, h5.2.2.2.2.1 (by decide)⟩

/-- C6 counterexample: POP at SP = 0xFFFE hits the source assertion
`assert_ne!(self.sp, 0xFFFE, ..)`, a fatal abort in every build profile,
instead of wrapping as the claim states. -/
theorem pop_at_sp_fffe_aborts :
    Machine.pop { machineA with sp := 0xFFFE } = none := by
  simp [Machine.pop]

/-- C6 amended: PC and SP arithmetic wraps modulo 65536 in fetch, push and
pop — fetch at PC = 0xFFFF wraps to 0, push with SP below 2 wraps, pop at
SP = 0xFFFF wraps — except that POP with SP exactly 0xFFFE (the empty
post-boot stack) is a fatal EmptyStackPop assertion, not a wrap. -/
theorem pc_sp_wrap_except_empty_pop (s : Machine) (v : Nat) :
    (s.fetch).2.pc = (s.pc + 1) % 65536
    ∧ (s.pc = 0xFFFF → (s.fetch).2.pc = 0)
    ∧ (s.push v).sp = (s.sp + 65534) % 65536
    ∧ (s.sp = 0 → (s.push v).sp = 0xFFFE)
    ∧ (s.sp ≠ 0xFFFE →
        s.pop = some (mergeBytes (s.mem ((s.sp + 1) % 65536)) (s.mem s.sp),
                      { s with sp := (s.sp + 2) % 65536 }))
    ∧ (s.sp = 0xFFFE → s.pop = none) := by
  refine ⟨rfl, ?_, rfl, ?_, ?_, ?_⟩
  · intro h
    show (s.pc + 1) % 65536 = 0
    rw [h]
  · intro h
    show (s.sp + 65534) % 65536 = 0xFFFE
    rw [h]
  · intro h
    simp [Machine.pop, h]
  · intro h
    simp [Machine.pop, h]

/-- Witness for the amended C6 theorem at `machineA` (PC = SP = 0xFFFF):
fetch wraps PC to 0 and POP completes, wrapping SP. -/
theorem pc_sp_wrap_except_empty_pop_witness :
    (machineA.fetch).2.pc = 0
    ∧ machineA.pop
        = some (mergeBytes (machineA.mem ((machineA.sp + 1) % 65536))
                  (machineA.mem machineA.sp),
                { machineA with sp := (machineA.sp + 2) % 65536 }) := by
  have h := pc_sp_wrap_except_empty_pop machineA 0
  exact ⟨h.2.1 (by decide), h.2.2.2.2.1 (by decide)⟩

/-- C10: `press_button` always requests the joypad interrupt: for every
button and both values of `pressed` — including a release — bit 4 of the
IF cell is set afterwards, and the button array records the new state. -/
theorem press_button_requests_joypad_irq (s : Machine) (b : Button) (p : Bool) :
    getBit ((s.pressButton b p).mem 0xFF0F) 4 = true
    ∧ (s.pressButton b p).buttons b.index = p := by
  constructor
  · simp only [Machine.pressButton, Machine.enableIrqType, Machine.writeRam,
      Machine.readRam, Interrupt.index, setBit8, if_true, reduceIte]
    simp only [getBit, bne_iff_ne, ne_eq]
    exact or_and_self_ne_zero _ _ (by decide)
  · simp [Machine.pressButton, Machine.enableIrqType, Machine.writeRam,
      Machine.readRam]

/-- C9: a write into external RAM on a loaded MBC2 cartridge is fatal.
Loading a ROM whose cartridge-type byte is 0x05 succeeds and selects MBC2,
but `Cart::write_ram` has no MBC2 arm and falls into `unimplemented!()`,
a panic, on the very first write, instead of completing silently. -/
theorem mbc2_ram_write_panics :
    getMbc 0x05 = MBC.MBC2
    ∧ mbc2CartLoaded.isSome = true
    ∧ (mbc2CartLoaded.bind (fun c => c.writeRam 0xA000 0)).isNone = true := by
  refine ⟨by decide, by decide, by decide⟩

end GB
